import Mathlib

/-!
Shallow embedding of the osgEarth `VersionedTerrain` / `VersionedTile` tile
request lifecycle engine (src/unnamed/part_000).

Pointers become `Option`, the C++ `std::list<osg::ref_ptr<TaskRequest>>` of a
tile becomes a `List`, floats used for request priorities become exact
rationals, and stamps / revisions (C++ `int`) become `Int`.  The external
`TaskRequest` / `TaskService` / `ProgressCallback` collaborators (declared in
headers that are not part of this source) are modelled from the spec where the
code depends on them.  Allocation of fresh progress callbacks is made explicit
by threading a `Nat` supply of callback identities.
-/

/-- Modelled from the spec: the `TaskRequest` lifecycle states
(`Idle → InProgress → \x7bCompleted | Canceled\x7d`, with `Canceled → Idle` on
reset).  The `TaskRequest` class itself is external to this source; the file
uses its states through `isIdle`, `isCompleted`, `isCanceled` and
`setState(STATE_IDLE)`. -/
inductive TaskState
  | STATE_IDLE
  | STATE_IN_PROGRESS
  | STATE_COMPLETED
  | STATE_CANCELED
  deriving DecidableEq, Repr

/-- Modelled from the spec: a progress/cancellation monitor
(`TileRequestProgressCallback`) carries a sticky `_canceled` flag, initially
false for a freshly constructed callback (the initialisation lives in the
external `ProgressCallback` base class); `id` records which allocation of
`new TileRequestProgressCallback` produced it, so that attaching a fresh
monitor is observable. -/
structure ProgressCB where
  id : Nat
  canceled : Bool
  deriving DecidableEq, Repr

/-- Which layer a `TileLayerRequest` targets: the single elevation layer
(`TileElevationLayerRequest`) or one indexed color layer
(`TileColorLayerRequest` with its `_layerIndex`). -/
inductive LayerKind
  | elevation
  | color (layerIndex : Nat)
  deriving DecidableEq, Repr

/-- One `TileLayerRequest` as the tile sees it: layer kind, priority (exact
rational standing in for the C++ float), submission stamp, lifecycle state,
result payload (`_result`, null modelled as `none`), and the attached progress
callback. -/
structure TileLayerRequest where
  kind : LayerKind
  priority : ℚ
  stamp : Int
  state : TaskState
  result : Option Nat
  progress : ProgressCB
  deriving DecidableEq, Repr

/-- Modelled from the spec: the external `TaskService` worker pool, identified
by which construction produced it (`id`), with its fixed thread count and its
current stamp readable by progress monitors. -/
structure TaskService where
  id : Nat
  numThreads : Nat
  stamp : Int
  deriving DecidableEq, Repr

/-- The `VersionedTile` state: key level, layer data, revision counters, the
request-servicing flags and the outstanding request collection
(`_requests`).  `elevationLayer` models `getElevationLayer()` (null as
`none`); `colorLayers` models the color-layer slots, so
`getNumColorLayers() = colorLayers.length`. -/
structure VersionedTile where
  level : Nat
  useLayerRequests : Bool
  terrainRevision : Int
  tileRevision : Int
  geometryRevision : Int
  requestsInstalled : Bool
  requestElevation : Bool
  elevationLayer : Option Nat
  colorLayers : List (Option Nat)
  dirty : Bool
  elevationLayerDirty : Bool
  colorLayersDirty : Bool
  usePerLayerUpdates : Bool
  requests : List TileLayerRequest
  deriving DecidableEq, Repr

/-- The `VersionedTerrain` state relevant to the claims: global revision
counter, configured worker-thread count, whether a `TileLayerFactory` is
attached (`_layerFactory`, null as `false`), and the lazily constructed task
service (`_taskService`, invalid as `none`). -/
structure VersionedTerrain where
  revision : Int
  numTaskServiceThreads : Nat
  layerFactory : Bool
  taskService : Option TaskService
  deriving DecidableEq, Repr

/-- `TileRequestProgressCallback::reportProgress`: if `_canceled` is already
set, return it; otherwise set `_canceled` to whether the service stamp minus
the request stamp exceeds 2, and return that.  Returns the reported value
together with the updated `_canceled` flag. -/
def reportProgress (canceled : Bool) (serviceStamp requestStamp : Int) : Bool × Bool :=
  if canceled then (canceled, canceled)
  else
    let c := decide (serviceStamp - requestStamp > 2)
    (c, c)

/-- A sequence of `reportProgress` calls on one monitor, each made while the
service stamp and the request stamp have the given values; returns the value
reported by each call in order. -/
def runPolls (canceled : Bool) : List (Int × Int) → List Bool
  | [] => []
  | p :: rest =>
    let step := reportProgress canceled p.1 p.2
    step.1 :: runPolls step.2 rest

/-- `VersionedTile::isInSyncWithTerrain`: the tile is in sync iff its stored
terrain revision equals the owning terrain's current revision. -/
def VersionedTile.isInSyncWithTerrain (tile : VersionedTile) (terrain : VersionedTerrain) : Bool :=
  decide (tile.terrainRevision = terrain.revision)

/-- `VersionedTerrain::getRevision`. -/
def VersionedTerrain.getRevision (terrain : VersionedTerrain) : Int :=
  terrain.revision

/-- `VersionedTerrain::incrementRevision`. -/
def VersionedTerrain.incrementRevision (terrain : VersionedTerrain) : VersionedTerrain :=
  { terrain with revision := terrain.revision + 1 }

/-- `VersionedTerrain::getOrCreateTaskService`: if `_taskService` is not
valid, construct it (double-checked under `_taskServiceMutex`; the embedding
is the sequential behaviour) with `_numTaskServiceThreads` threads; return
the service.  Construction of a `new TaskService` consumes one fresh identity
from the supply `fresh`. -/
def VersionedTerrain.getOrCreateTaskService (terrain : VersionedTerrain) (fresh : Nat) :
    TaskService × VersionedTerrain × Nat :=
  match terrain.taskService with
  | some s => (s, terrain, fresh)
  | none =>
    let s : TaskService := { id := fresh, numThreads := terrain.numTaskServiceThreads, stamp := 0 }
    (s, { terrain with taskService := some s }, fresh + 1)

/-- The request-installation block of `VersionedTile::servicePendingRequests`
(run when `_requestsInstalled` is false and the factory is non-null): one
`TileElevationLayerRequest` if the tile has an elevation layer and the
elevation hint is set, with priority the key level, then one
`TileColorLayerRequest` per color layer index with priority
`level + 0.1 * layerIndex`; every request gets the given stamp, starts
`STATE_IDLE` with no result, and gets a freshly constructed progress
callback.  Returns the created requests in `push_back` order and the
remaining identity supply. -/
def elevReq (tile : VersionedTile) (stamp : Int) (fresh : Nat) : TileLayerRequest :=
  { kind := LayerKind.elevation
    priority := (tile.level : ℚ)
    stamp := stamp
    state := TaskState.STATE_IDLE
    result := none
    progress := { id := fresh, canceled := false } }

def elevInstall (tile : VersionedTile) (stamp : Int) (fresh : Nat) :
    List TileLayerRequest × Nat :=
  if tile.elevationLayer.isSome && tile.requestElevation then
    ([elevReq tile stamp fresh], fresh + 1)
  else ([], fresh)

/-- One freshly created `TileColorLayerRequest` for the given layer index,
with priority `level + 0.1 * layerIndex`. -/
def colorReq (tile : VersionedTile) (stamp : Int) (fresh0 : Nat) (layerIndex : Nat) :
    TileLayerRequest :=
  { kind := LayerKind.color layerIndex
    priority := (tile.level : ℚ) + (1 / 10 : ℚ) * (layerIndex : ℚ)
    stamp := stamp
    state := TaskState.STATE_IDLE
    result := none
    progress := { id := fresh0 + layerIndex, canceled := false } }

def installRequests (tile : VersionedTile) (stamp : Int) (fresh : Nat) :
    List TileLayerRequest × Nat :=
  ((elevInstall tile stamp fresh).1 ++
      (List.range tile.colorLayers.length).map
        (colorReq tile stamp (elevInstall tile stamp fresh).2),
    (elevInstall tile stamp fresh).2 + tile.colorLayers.length)

/-- The servicing loop of `VersionedTile::servicePendingRequests`: for each
outstanding request, if it `isIdle` set its stamp and add it to the task
service; otherwise if it is not completed, set its stamp.  Returns the
updated request list and the requests added to the task service, in order. -/
def serviceLoop (stamp : Int) : List TileLayerRequest →
    List TileLayerRequest × List TileLayerRequest
  | [] => ([], [])
  | r :: rest =>
    let tail := serviceLoop stamp rest
    if r.state = TaskState.STATE_IDLE then
      let r1 := { r with stamp := stamp }
      (r1 :: tail.1, r1 :: tail.2)
    else if r.state ≠ TaskState.STATE_COMPLETED then
      ({ r with stamp := stamp } :: tail.1, tail.2)
    else
      (r :: tail.1, tail.2)

/-- `VersionedTile::servicePendingRequests`: if requests are not yet
installed, install them (only when the terrain's `TileLayerFactory` is
non-null) and set `_requestsInstalled` to true unconditionally; then run the
servicing loop over the outstanding requests.  Returns the updated tile, the
requests submitted to the task service by this call, and the remaining
progress-callback identity supply. -/
def VersionedTile.servicePendingRequests (tile : VersionedTile) (factoryPresent : Bool)
    (stamp : Int) (fresh : Nat) :
    VersionedTile × List TileLayerRequest × Nat :=
  let installed : VersionedTile × Nat :=
    if !tile.requestsInstalled then
      if factoryPresent then
        let newReqs := installRequests tile stamp fresh
        ({ tile with requests := tile.requests ++ newReqs.1, requestsInstalled := true },
         newReqs.2)
      else
        ({ tile with requestsInstalled := true }, fresh)
    else (tile, fresh)
  let serviced := serviceLoop stamp installed.1.requests
  ({ installed.1 with requests := serviced.1 }, serviced.2, installed.2)

/-- The completed-request branch of `VersionedTile::serviceCompletedRequests`:
for an elevation request whose result is non-null, install the result as the
tile's elevation layer and either set `_elevationLayerDirty` (per-layer-update
mode) or `setDirty(true)`; for a color request whose result is non-null,
install it at the request's layer index and set `_colorLayersDirty` or
`setDirty(true)`; a null result changes nothing. -/
def harvestCompleted (tile : VersionedTile) (r : TileLayerRequest) : VersionedTile :=
  match r.kind with
  | LayerKind.elevation =>
    match r.result with
    | some hfLayer =>
      let t := { tile with elevationLayer := some hfLayer }
      if t.usePerLayerUpdates then { t with elevationLayerDirty := true }
      else { t with dirty := true }
    | none => tile
  | LayerKind.color layerIndex =>
    match r.result with
    | some imgLayer =>
      let t := { tile with colorLayers := tile.colorLayers.set layerIndex (some imgLayer) }
      if t.usePerLayerUpdates then { t with colorLayersDirty := true }
      else { t with dirty := true }
    | none => tile

/-- The harvesting loop of `VersionedTile::serviceCompletedRequests` over the
request list: a completed request is applied to the tile and erased; a
canceled request is reset to `STATE_IDLE` and given a freshly constructed
progress callback, staying in the list; any other request is left untouched.
Returns the updated tile fields, the remaining identity supply and the
surviving request list. -/
def harvestLoop (tile : VersionedTile) (fresh : Nat) :
    List TileLayerRequest → VersionedTile × Nat × List TileLayerRequest
  | [] => (tile, fresh, [])
  | r :: rest =>
    if r.state = TaskState.STATE_COMPLETED then
      harvestLoop (harvestCompleted tile r) fresh rest
    else if r.state = TaskState.STATE_CANCELED then
      let r1 := { r with state := TaskState.STATE_IDLE
                         progress := { id := fresh, canceled := false } }
      let tail := harvestLoop tile (fresh + 1) rest
      (tail.1, tail.2.1, r1 :: tail.2.2)
    else
      let tail := harvestLoop tile fresh rest
      (tail.1, tail.2.1, r :: tail.2.2)

/-- `VersionedTile::serviceCompletedRequests`: run the harvesting loop over
`_requests` and store the surviving list back into the tile. -/
def VersionedTile.serviceCompletedRequests (tile : VersionedTile) (fresh : Nat) :
    VersionedTile × Nat :=
  let out := harvestLoop tile fresh tile.requests
  ({ out.1 with requests := out.2.2 }, out.2.1)

/-- The pre-traversal block of `VersionedTile::traverse` (run when servicing
is enabled): harvest completed requests; then, if the whole tile is dirty,
set both `_elevationLayerDirty` and `_colorLayersDirty` (the normal rebuild
will handle it); otherwise, if either per-layer flag is set, call
`EarthTerrainTechnique::updateContent` with the two flags.  The third
component records the `updateContent` call (`none` when it is not made). -/
def traversePre (tile : VersionedTile) (fresh : Nat) :
    VersionedTile × Nat × Option (Bool × Bool) :=
  let harvested := tile.serviceCompletedRequests fresh
  let t1 := harvested.1
  if t1.dirty then
    ({ t1 with elevationLayerDirty := true, colorLayersDirty := true }, harvested.2, none)
  else if t1.elevationLayerDirty || t1.colorLayersDirty then
    (t1, harvested.2, some (t1.elevationLayerDirty, t1.colorLayersDirty))
  else
    (t1, harvested.2, none)

/-- The post-traversal block of `VersionedTile::traverse` (run when servicing
is enabled, after the base-class traversal): bump `_geometryRevision` if
`_elevationLayerDirty` is set, then clear both per-layer dirty flags. -/
def traversePost (tile : VersionedTile) : VersionedTile :=
  { tile with
      geometryRevision := tile.geometryRevision + (if tile.elevationLayerDirty then 1 else 0)
      elevationLayerDirty := false
      colorLayersDirty := false }

/-- `VersionedTile::traverse`: when `_useLayerRequests` is set and the visitor
is an update visitor, run the pre-traversal block, the (external) base-class
traversal — which does not touch the fields modelled here — and the
post-traversal block.  Returns the updated tile, the remaining identity
supply, and the recorded `updateContent` call if one was made. -/
def VersionedTile.traverse (tile : VersionedTile) (isUpdateVisitor : Bool) (fresh : Nat) :
    VersionedTile × Nat × Option (Bool × Bool) :=
  if tile.useLayerRequests && isUpdateVisitor then
    let pre := traversePre tile fresh
    (traversePost pre.1, pre.2.1, pre.2.2)
  else
    (tile, fresh, none)

/-- Number of outstanding requests in a list that target the given layer. -/
def countKind (k : LayerKind) (rs : List TileLayerRequest) : Nat :=
  rs.countP (fun r => decide (r.kind = k))

/-- Iterated calls of `servicePendingRequests` on one tile, one call per
element of `calls` (factory presence and stamp for that cycle). -/
def servicePendingIter (tile : VersionedTile) (fresh : Nat) :
    List (Bool × Int) → VersionedTile × Nat
  | [] => (tile, fresh)
  | c :: rest =>
    let step := tile.servicePendingRequests c.1 c.2 fresh
    servicePendingIter step.1 step.2.2 rest

/-- Modelled from the spec: the update-cycle revision reconciliation that
calls `isInSyncWithTerrain` lives outside this source file.  Per the spec, an
out-of-sync tile "must be reconciled by discarding cached layer data and
reinstalling all requests (full re-fetch)": the cached elevation and color
layer data are discarded, the outstanding requests are dropped, and a fresh
request set — one request per layer the tile had cached, built by the
code's install block (`installRequests`) evaluated on the pre-discard layer
set — is installed in their place; the tile is marked dirty for the full
reload and its stored revision resynchronised.  An in-sync tile is left
unchanged. -/
def reconcileWithTerrain (tile : VersionedTile) (terrain : VersionedTerrain)
    (stamp : Int) (fresh : Nat) : VersionedTile × Nat :=
  if tile.isInSyncWithTerrain terrain then (tile, fresh)
  else
    ({ tile with
        elevationLayer := none
        colorLayers := tile.colorLayers.map (fun _ => none)
        requests := (installRequests tile stamp fresh).1
        requestsInstalled := true
        dirty := true
        terrainRevision := terrain.revision },
      (installRequests tile stamp fresh).2)

/-! Helper lemmas about the servicing loop. -/

/-- The per-request update the servicing loop applies: a completed request is
left alone, every other request gets its stamp refreshed. -/
def stampUpd (s : Int) (r : TileLayerRequest) : TileLayerRequest :=
  if r.state = TaskState.STATE_COMPLETED then r else { r with stamp := s }

theorem stampUpd_kind (s : Int) (r : TileLayerRequest) : (stampUpd s r).kind = r.kind := by
  unfold stampUpd; split <;> rfl

theorem stampUpd_priority (s : Int) (r : TileLayerRequest) :
    (stampUpd s r).priority = r.priority := by
  unfold stampUpd; split <;> rfl

theorem stampUpd_state (s : Int) (r : TileLayerRequest) : (stampUpd s r).state = r.state := by
  unfold stampUpd; split <;> rfl

theorem serviceLoop_fst (s : Int) (rs : List TileLayerRequest) :
    (serviceLoop s rs).1 = rs.map (stampUpd s) := by
  induction rs with
  | nil => rfl
  | cons r rest ih =>
    simp only [serviceLoop, List.map_cons, stampUpd]
    by_cases h1 : r.state = TaskState.STATE_IDLE
    · simp [h1, ih, stampUpd]
    · by_cases h2 : r.state = TaskState.STATE_COMPLETED
      · simp [h1, h2, ih, stampUpd]
      · simp [h1, h2, ih, stampUpd]

theorem serviceLoop_snd (s : Int) (rs : List TileLayerRequest) :
    (serviceLoop s rs).2 =
      (rs.filter (fun r => decide (r.state = TaskState.STATE_IDLE))).map
        (fun r => { r with stamp := s }) := by
  induction rs with
  | nil => rfl
  | cons r rest ih =>
    simp only [serviceLoop]
    by_cases h1 : r.state = TaskState.STATE_IDLE
    · simp [h1, ih]
    · by_cases h2 : r.state = TaskState.STATE_COMPLETED
      · simp [h1, h2, ih]
      · simp [h1, h2, ih]

theorem countKind_serviceLoop (k : LayerKind) (s : Int) (rs : List TileLayerRequest) :
    countKind k (serviceLoop s rs).1 = countKind k rs := by
  rw [serviceLoop_fst]
  unfold countKind
  rw [List.countP_map]
  congr 1
  funext r
  simp [Function.comp, stampUpd_kind]

/-! Helper lemmas about progress-monitor poll sequences. -/

/-- The staleness margin a poll observes: service stamp minus request stamp. -/
def pollDiff (p : Int × Int) : Int := p.1 - p.2

theorem runPolls_length (c : Bool) (ps : List (Int × Int)) :
    (runPolls c ps).length = ps.length := by
  induction ps generalizing c with
  | nil => rfl
  | cons p rest ih => simp [runPolls, ih]

theorem runPolls_canceled_all (ps : List (Int × Int)) (n : Nat) (hn : n < ps.length) :
    (runPolls true ps)[n]? = some true := by
  induction ps generalizing n with
  | nil => exact absurd hn (Nat.not_lt_zero n)
  | cons p rest ih =>
    cases n with
    | zero => simp [runPolls, reportProgress]
    | succ m =>
      have hm : m < rest.length := by simpa using hn
      simpa [runPolls, reportProgress] using ih m hm

theorem runPolls_eq_true_iff (ps : List (Int × Int)) (n : Nat) (hn : n < ps.length) :
    ((runPolls false ps)[n]? = some true ↔
      ∃ k, k ≤ n ∧ ∃ p, ps[k]? = some p ∧ pollDiff p > 2) := by
  induction ps generalizing n with
  | nil => exact absurd hn (Nat.not_lt_zero n)
  | cons p rest ih =>
    cases n with
    | zero =>
      constructor
      · intro h
        refine ⟨0, Nat.le_refl 0, p, by simp, ?_⟩
        simp [runPolls, reportProgress, pollDiff] at h
        exact h
      · rintro ⟨k, hk, q, hq, hdq⟩
        have hk0 : k = 0 := Nat.le_zero.mp hk
        subst hk0
        have hpq : p = q := by simpa using hq
        subst hpq
        simp [runPolls, reportProgress, pollDiff] at hdq ⊢
        exact hdq
    | succ m =>
      have hm : m < rest.length := by simpa using hn
      by_cases hd : pollDiff p > 2
      · have hL : (runPolls false (p :: rest))[m + 1]? = some true := by
          simp only [runPolls, reportProgress, List.getElem?_cons_succ]
          have hdec : decide (p.1 - p.2 > 2) = true := by
            simp [pollDiff] at hd; exact decide_eq_true hd
          simp only [if_neg (by simp : ¬ (false = true)), hdec]
          exact runPolls_canceled_all rest m hm
        rw [hL]
        constructor
        · intro _; exact ⟨0, Nat.zero_le _, p, by simp, hd⟩
        · intro _; rfl
      · have hdec : decide (p.1 - p.2 > 2) = false := by
          simp [pollDiff] at hd
          simpa using hd
        have hL : (runPolls false (p :: rest))[m + 1]? = (runPolls false rest)[m]? := by
          simp only [runPolls, reportProgress, List.getElem?_cons_succ]
          simp only [if_neg (by simp : ¬ (false = true)), hdec]
        rw [hL, ih m hm]
        constructor
        · rintro ⟨k, hk, q, hq, hdq⟩
          exact ⟨k + 1, Nat.succ_le_succ hk, q, by simpa using hq, hdq⟩
        · rintro ⟨k, hk, q, hq, hdq⟩
          cases k with
          | zero =>
            have hpq : p = q := by simpa using hq
            subst hpq
            exact absurd hdq hd
          | succ j =>
            exact ⟨j, Nat.le_of_succ_le_succ hk, q, by simpa using hq, hdq⟩

theorem servicePending_installed (tile : VersionedTile) (factoryPresent : Bool) (s : Int)
    (fresh : Nat) (hinst : tile.requestsInstalled = true) :
    tile.servicePendingRequests factoryPresent s fresh =
      ({ tile with requests := (serviceLoop s tile.requests).1 },
        (serviceLoop s tile.requests).2, fresh) := by
  simp [VersionedTile.servicePendingRequests, hinst]

/-- Claim C2: a `reportProgress` call on a request's monitor returns cancelled
iff a previous call on that monitor already returned cancelled or the task
service's stamp minus the request's stamp at that call exceeds 2; this gives
both monotonicity of cancellation and cancellation on the first poll made
while the request lags by more than 2 cycles. -/
theorem claim_C2 (ps : List (Int × Int)) (n : Nat) (hn : n < ps.length) :
    ((runPolls false ps)[n]? = some true ↔
      ((∃ k, k < n ∧ (runPolls false ps)[k]? = some true) ∨
        (∃ p, ps[n]? = some p ∧ pollDiff p > 2))) := by
  rw [runPolls_eq_true_iff ps n hn]
  constructor
  · rintro ⟨k, hk, q, hq, hdq⟩
    rcases Nat.lt_or_ge k n with hlt | hge
    · left
      refine ⟨k, hlt, ?_⟩
      rw [runPolls_eq_true_iff ps k (Nat.lt_trans hlt hn)]
      exact ⟨k, Nat.le_refl k, q, hq, hdq⟩
    · have hkn : k = n := Nat.le_antisymm hk hge
      subst hkn
      exact Or.inr ⟨q, hq, hdq⟩
  · rintro (⟨k, hkn, hk⟩ | ⟨q, hq, hdq⟩)
    · obtain ⟨j, hj, q, hq, hdq⟩ := (runPolls_eq_true_iff ps k (Nat.lt_trans hkn hn)).mp hk
      exact ⟨j, Nat.le_trans hj (Nat.le_of_lt hkn), q, hq, hdq⟩
    · exact ⟨n, Nat.le_refl n, q, hq, hdq⟩

/-- Concrete poll sequence for the C2 witness: stamps in sync, then lagging by
4, then lagging by 3. -/
def pollsEx : List (Int × Int) := [(0, 0), (5, 1), (4, 1)]

theorem claim_C2_witness :
    (2 : Nat) < pollsEx.length ∧
      ((runPolls false pollsEx)[2]? = some true ↔
        ((∃ k, k < 2 ∧ (runPolls false pollsEx)[k]? = some true) ∨
          (∃ p, pollsEx[2]? = some p ∧ pollDiff p > 2))) :=
  ⟨by decide, claim_C2 pollsEx 2 (by decide)⟩

/-- Claim C8: `getOrCreateTaskService` constructs the task service lazily on
the first call (with the configured thread count, consuming one construction)
and at most once: a call on a terrain that already holds a service returns
that same instance and changes nothing, so a second call after any call
returns the instance of the first call and performs no construction. -/
theorem claim_C8 (terrain : VersionedTerrain) (fresh : Nat) :
    (terrain.taskService = none →
      (terrain.getOrCreateTaskService fresh).2.1.taskService =
          some (terrain.getOrCreateTaskService fresh).1 ∧
        (terrain.getOrCreateTaskService fresh).1.numThreads = terrain.numTaskServiceThreads ∧
        (terrain.getOrCreateTaskService fresh).2.2 = fresh + 1) ∧
    (∀ s, terrain.taskService = some s →
      terrain.getOrCreateTaskService fresh = (s, terrain, fresh)) ∧
    ((terrain.getOrCreateTaskService fresh).2.1.getOrCreateTaskService
        (terrain.getOrCreateTaskService fresh).2.2 =
      ((terrain.getOrCreateTaskService fresh).1, (terrain.getOrCreateTaskService fresh).2.1,
        (terrain.getOrCreateTaskService fresh).2.2)) := by
  rcases hts : terrain.taskService with _ | s
  · refine ⟨fun _ => ?_, fun s hs => ?_, ?_⟩
    · simp [VersionedTerrain.getOrCreateTaskService, hts]
    · simp at hs
    · simp [VersionedTerrain.getOrCreateTaskService, hts]
  · refine ⟨fun h => ?_, fun s2 hs => ?_, ?_⟩
    · simp at h
    · have hss : s = s2 := Option.some.inj hs
      subst hss
      simp [VersionedTerrain.getOrCreateTaskService, hts]
    · simp [VersionedTerrain.getOrCreateTaskService, hts]

/-- Concrete freshly built terrain for the C8 witness. -/
def terrainEx : VersionedTerrain :=
  { revision := 0, numTaskServiceThreads := 8, layerFactory := true, taskService := none }

theorem claim_C8_witness :
    (terrainEx.getOrCreateTaskService 0).2.1.taskService =
        some (terrainEx.getOrCreateTaskService 0).1 ∧
      (terrainEx.getOrCreateTaskService 0).2.2 = 1 := by
  have h := claim_C8 terrainEx 0
  exact ⟨(h.1 rfl).1, (h.1 rfl).2.2⟩

/-- Claim C6: during a servicing pass with stamp `s` over a tile whose
requests are installed, the submitted requests are exactly the idle ones with
their stamps set to `s`; elementwise, an idle request gets stamp `s` and is
submitted, a request that is neither idle nor completed gets stamp `s` (and,
by the first part, is not submitted), and a completed request is left exactly
as it was. -/
theorem claim_C6 (tile : VersionedTile) (factoryPresent : Bool) (s : Int) (fresh : Nat)
    (hinst : tile.requestsInstalled = true) :
    ((tile.servicePendingRequests factoryPresent s fresh).2.1 =
        (tile.requests.filter (fun r => decide (r.state = TaskState.STATE_IDLE))).map
          (fun r => { r with stamp := s })) ∧
    (∀ (j : Nat) (r : TileLayerRequest), tile.requests[j]? = some r →
      ((r.state = TaskState.STATE_IDLE →
          (tile.servicePendingRequests factoryPresent s fresh).1.requests[j]? =
              some { r with stamp := s } ∧
            { r with stamp := s } ∈ (tile.servicePendingRequests factoryPresent s fresh).2.1) ∧
        (r.state ≠ TaskState.STATE_IDLE → r.state ≠ TaskState.STATE_COMPLETED →
          (tile.servicePendingRequests factoryPresent s fresh).1.requests[j]? =
            some { r with stamp := s }) ∧
        (r.state = TaskState.STATE_COMPLETED →
          (tile.servicePendingRequests factoryPresent s fresh).1.requests[j]? = some r))) := by
  rw [servicePending_installed tile factoryPresent s fresh hinst]
  refine ⟨serviceLoop_snd s tile.requests, ?_⟩
  intro j r hjr
  have hmap : (serviceLoop s tile.requests).1[j]? = some (stampUpd s r) := by
    rw [serviceLoop_fst, List.getElem?_map, hjr]
    rfl
  refine ⟨fun hidle => ⟨?_, ?_⟩, fun h1 h2 => ?_, fun hc => ?_⟩
  · show (serviceLoop s tile.requests).1[j]? = some { r with stamp := s }
    rw [hmap]
    simp [stampUpd, hidle]
  · show { r with stamp := s } ∈ (serviceLoop s tile.requests).2
    rw [serviceLoop_snd]
    exact List.mem_map.mpr
      ⟨r, List.mem_filter.mpr ⟨List.getElem?_mem hjr, by simp [hidle]⟩, rfl⟩
  · show (serviceLoop s tile.requests).1[j]? = some { r with stamp := s }
    rw [hmap]
    simp [stampUpd, h2]
  · show (serviceLoop s tile.requests).1[j]? = some r
    rw [hmap]
    simp [stampUpd, hc]

/-- Example requests and tile for the C6 witness: one idle, one in-flight and
one completed request on a tile whose requests are installed. -/
def reqIdleEx : TileLayerRequest :=
  { kind := LayerKind.elevation, priority := 3, stamp := 0,
    state := TaskState.STATE_IDLE, result := none, progress := { id := 0, canceled := false } }

def reqProgEx : TileLayerRequest :=
  { kind := LayerKind.color 0, priority := 3, stamp := 0,
    state := TaskState.STATE_IN_PROGRESS, result := none,
    progress := { id := 1, canceled := false } }

def reqDoneEx : TileLayerRequest :=
  { kind := LayerKind.color 1, priority := 31 / 10, stamp := 0,
    state := TaskState.STATE_COMPLETED, result := some 5,
    progress := { id := 2, canceled := false } }

def tileC6Ex : VersionedTile :=
  { level := 3, useLayerRequests := true, terrainRevision := 0, tileRevision := 0,
    geometryRevision := 0, requestsInstalled := true, requestElevation := true,
    elevationLayer := some 1, colorLayers := [none, none], dirty := false,
    elevationLayerDirty := false, colorLayersDirty := false, usePerLayerUpdates := false,
    requests := [reqIdleEx, reqProgEx, reqDoneEx] }

theorem claim_C6_witness :
    (tileC6Ex.servicePendingRequests true 4 0).1.requests[0]? =
        some { reqIdleEx with stamp := 4 } ∧
      (tileC6Ex.servicePendingRequests true 4 0).1.requests[2]? = some reqDoneEx := by
  have h := claim_C6 tileC6Ex true 4 0 rfl
  exact ⟨((h.2 0 reqIdleEx rfl).1 rfl).1, (h.2 2 reqDoneEx rfl).2.2 rfl⟩

/-! Helper lemmas about request installation. -/

theorem TileLayerRequest.setStamp_self (s : Int) (r : TileLayerRequest) (h : r.stamp = s) :
    { r with stamp := s } = r := by
  cases r
  cases h
  rfl

theorem serviceLoop_fresh (s : Int) (rs : List TileLayerRequest)
    (h : ∀ r ∈ rs, r.state = TaskState.STATE_IDLE ∧ r.stamp = s) :
    serviceLoop s rs = (rs, rs) := by
  induction rs with
  | nil => rfl
  | cons r rest ih =>
    obtain ⟨hst, hsp⟩ := h r (List.mem_cons_self r rest)
    have hrest := ih (fun q hq => h q (List.mem_cons_of_mem r hq))
    have hupd : { r with stamp := s } = r := TileLayerRequest.setStamp_self s r hsp
    simp only [serviceLoop, if_pos hst, hupd, hrest]

theorem installRequests_all (tile : VersionedTile) (s : Int) (fresh : Nat) :
    ∀ r ∈ (installRequests tile s fresh).1,
      r.state = TaskState.STATE_IDLE ∧ r.stamp = s := by
  intro r hr
  unfold installRequests at hr
  rcases List.mem_append.mp hr with he | hc
  · unfold elevInstall at he
    by_cases h : (tile.elevationLayer.isSome && tile.requestElevation) = true
    · rw [if_pos h] at he
      have : r = _ := List.mem_singleton.mp he
      rw [this]
      exact ⟨rfl, rfl⟩
    · rw [if_neg h] at he
      cases he
  · obtain ⟨j, hj, hje⟩ := List.mem_map.mp hc
    rw [← hje]
    exact ⟨rfl, rfl⟩

theorem servicePending_firstCall (tile : VersionedTile) (s : Int) (fresh : Nat)
    (h1 : tile.requestsInstalled = false) (h2 : tile.requests = []) :
    tile.servicePendingRequests true s fresh =
      ({ tile with requests := (installRequests tile s fresh).1, requestsInstalled := true },
        (installRequests tile s fresh).1, (installRequests tile s fresh).2) := by
  have hloop := serviceLoop_fresh s (installRequests tile s fresh).1
    (installRequests_all tile s fresh)
  simp [VersionedTile.servicePendingRequests, h1, h2, hloop]

theorem countP_range_eq (i n : Nat) :
    (List.range n).countP (fun j => decide (j = i)) = if i < n then 1 else 0 := by
  induction n with
  | zero => simp
  | succ m ih =>
    rw [List.range_succ, List.countP_append, ih]
    by_cases h : m = i
    · subst h
      simp
    · have hne : ¬ (decide (m = i) = true) := by simp [h]
      simp only [List.countP_cons, List.countP_nil]
      rw [if_neg hne]
      by_cases hlt : i < m
      · rw [if_pos hlt, if_pos (Nat.lt_succ_of_lt hlt)]
      · rw [if_neg hlt, if_neg ?_]
        intro hcon
        rcases Nat.lt_succ_iff_lt_or_eq.mp hcon with hc | hc
        · exact hlt hc
        · exact h hc.symm

theorem countKind_colorReqs (tile : VersionedTile) (s : Int) (fresh0 : Nat) (k : LayerKind) :
    ((List.range tile.colorLayers.length).map (colorReq tile s fresh0)).countP
        (fun r => decide (r.kind = k)) =
      match k with
      | LayerKind.elevation => 0
      | LayerKind.color i => if i < tile.colorLayers.length then 1 else 0 := by
  rw [List.countP_map]
  cases k with
  | elevation =>
    apply List.countP_eq_zero.mpr
    intro j hj
    simp [Function.comp, colorReq]
  | color i =>
    have hfun : ((fun r => decide (r.kind = LayerKind.color i)) ∘ colorReq tile s fresh0) =
        (fun j => decide (j = i)) := by
      funext j
      simp [Function.comp, colorReq, LayerKind.color.injEq]
    rw [hfun]
    exact countP_range_eq i tile.colorLayers.length

theorem countKind_install_elev (tile : VersionedTile) (s : Int) (fresh : Nat) :
    countKind LayerKind.elevation (installRequests tile s fresh).1 =
      if tile.elevationLayer.isSome && tile.requestElevation then 1 else 0 := by
  unfold installRequests countKind
  rw [List.countP_append, countKind_colorReqs tile s (elevInstall tile s fresh).2
    LayerKind.elevation]
  unfold elevInstall
  by_cases h : (tile.elevationLayer.isSome && tile.requestElevation) = true
  · rw [if_pos h, if_pos h]
    rfl
  · rw [if_neg h, if_neg h]
    rfl

theorem countKind_install_color (tile : VersionedTile) (s : Int) (fresh : Nat) (i : Nat) :
    countKind (LayerKind.color i) (installRequests tile s fresh).1 =
      if i < tile.colorLayers.length then 1 else 0 := by
  unfold installRequests countKind
  rw [List.countP_append, countKind_colorReqs tile s (elevInstall tile s fresh).2
    (LayerKind.color i)]
  unfold elevInstall
  by_cases h : (tile.elevationLayer.isSome && tile.requestElevation) = true
  · rw [if_pos h]
    simp [elevReq]
  · rw [if_neg h]
    simp

/-- Claim C1: on a tile with no requests installed, the first
`servicePendingRequests` call (with a factory present) sets
`requestsInstalled` and creates exactly one request per installed layer (one
elevation request when the elevation layer is present and hinted, one color
request per color layer index, and never more than one per layer), and a
second call — with any factory/stamp — creates no additional request for any
layer. -/
theorem claim_C1 (tile : VersionedTile) (s s2 : Int) (fresh fresh2 : Nat) (f2 : Bool)
    (h1 : tile.requestsInstalled = false) (h2 : tile.requests = []) :
    ((tile.servicePendingRequests true s fresh).1.requestsInstalled = true) ∧
    (countKind LayerKind.elevation (tile.servicePendingRequests true s fresh).1.requests =
      if tile.elevationLayer.isSome && tile.requestElevation then 1 else 0) ∧
    (∀ i : Nat,
      countKind (LayerKind.color i) (tile.servicePendingRequests true s fresh).1.requests =
        if i < tile.colorLayers.length then 1 else 0) ∧
    (∀ k : LayerKind, countKind k (tile.servicePendingRequests true s fresh).1.requests ≤ 1) ∧
    (∀ k : LayerKind,
      countKind k
          (((tile.servicePendingRequests true s fresh).1.servicePendingRequests f2 s2
              fresh2).1.requests) =
        countKind k (tile.servicePendingRequests true s fresh).1.requests) := by
  have hreq : (tile.servicePendingRequests true s fresh).1.requests =
      (installRequests tile s fresh).1 := by
    rw [servicePending_firstCall tile s fresh h1 h2]
  have hinst1 : (tile.servicePendingRequests true s fresh).1.requestsInstalled = true := by
    rw [servicePending_firstCall tile s fresh h1 h2]
  refine ⟨hinst1, ?_, ?_, ?_, ?_⟩
  · rw [hreq]
    exact countKind_install_elev tile s fresh
  · intro i
    rw [hreq]
    exact countKind_install_color tile s fresh i
  · intro k
    rw [hreq]
    cases k with
    | elevation =>
      rw [countKind_install_elev tile s fresh]
      split <;> decide
    | color i =>
      rw [countKind_install_color tile s fresh i]
      split <;> decide
  · intro k
    rw [servicePending_installed (tile.servicePendingRequests true s fresh).1 f2 s2 fresh2
      hinst1]
    exact countKind_serviceLoop k s2 (tile.servicePendingRequests true s fresh).1.requests

/-- Concrete level-3 tile with an elevation layer, the elevation hint, two
color layers and no installed requests, shared by the install-phase
witnesses. -/
def tileFreshEx : VersionedTile :=
  { level := 3, useLayerRequests := true, terrainRevision := 0, tileRevision := 0,
    geometryRevision := 0, requestsInstalled := false, requestElevation := true,
    elevationLayer := some 7, colorLayers := [none, none], dirty := false,
    elevationLayerDirty := false, colorLayersDirty := false, usePerLayerUpdates := false,
    requests := [] }

theorem claim_C1_witness :
    (tileFreshEx.servicePendingRequests true 0 0).1.requestsInstalled = true ∧
      countKind LayerKind.elevation (tileFreshEx.servicePendingRequests true 0 0).1.requests
        = 1 ∧
      countKind (LayerKind.color 0) (tileFreshEx.servicePendingRequests true 0 0).1.requests
        = 1 := by
  have h := claim_C1 tileFreshEx 0 0 0 0 true rfl rfl
  refine ⟨h.1, ?_, ?_⟩
  · rw [h.2.1]
    decide
  · rw [h.2.2.1 0]
    decide

/-- Claim C9: installation gives the elevation request priority exactly the
tile's quadtree level and the color request for layer index `i` priority
exactly `level + 0.1 * i` (priorities modelled as exact rationals); the
requests sit in `push_back` order: elevation first, then the color layers by
index. -/
theorem claim_C9 (tile : VersionedTile) (s : Int) (fresh : Nat)
    (h1 : tile.requestsInstalled = false) (h2 : tile.requests = [])
    (h3 : tile.elevationLayer.isSome = true) (h4 : tile.requestElevation = true) :
    ((tile.servicePendingRequests true s fresh).1.requests.length =
        1 + tile.colorLayers.length) ∧
    (∃ r : TileLayerRequest,
      (tile.servicePendingRequests true s fresh).1.requests[0]? = some r ∧
        r.kind = LayerKind.elevation ∧ r.priority = (tile.level : ℚ)) ∧
    (∀ i : Nat, i < tile.colorLayers.length →
      ∃ r : TileLayerRequest,
        (tile.servicePendingRequests true s fresh).1.requests[i + 1]? = some r ∧
          r.kind = LayerKind.color i ∧
          r.priority = (tile.level : ℚ) + (1 / 10 : ℚ) * (i : ℚ)) := by
  have hreq : (tile.servicePendingRequests true s fresh).1.requests =
      (installRequests tile s fresh).1 := by
    rw [servicePending_firstCall tile s fresh h1 h2]
  have hcond : (tile.elevationLayer.isSome && tile.requestElevation) = true := by
    rw [h3, h4]
    rfl
  have hlist : (installRequests tile s fresh).1 =
      elevReq tile s fresh ::
        (List.range tile.colorLayers.length).map (colorReq tile s (fresh + 1)) := by
    unfold installRequests elevInstall
    rw [if_pos hcond]
    simp only [List.singleton_append]
  rw [hreq, hlist]
  refine ⟨?_, ⟨elevReq tile s fresh, List.getElem?_cons_zero, rfl, rfl⟩, ?_⟩
  · rw [List.length_cons, List.length_map, List.length_range]
    exact Nat.add_comm tile.colorLayers.length 1
  · intro i hi
    simp only [List.getElem?_cons_succ, List.getElem?_map, List.getElem?_range hi,
      Option.map_some]
    exact ⟨colorReq tile s (fresh + 1) i, rfl, rfl, rfl⟩

theorem claim_C9_witness :
    ((tileFreshEx.servicePendingRequests true 0 0).1.requests.length = 3) ∧
    (∃ r : TileLayerRequest,
      (tileFreshEx.servicePendingRequests true 0 0).1.requests[0]? = some r ∧
        r.kind = LayerKind.elevation ∧ r.priority = 3) ∧
    (∃ r : TileLayerRequest,
      (tileFreshEx.servicePendingRequests true 0 0).1.requests[1]? = some r ∧
        r.kind = LayerKind.color 0 ∧ r.priority = 3) ∧
    (∃ r : TileLayerRequest,
      (tileFreshEx.servicePendingRequests true 0 0).1.requests[2]? = some r ∧
        r.kind = LayerKind.color 1 ∧ r.priority = 31 / 10) := by
  have h := claim_C9 tileFreshEx 0 0 rfl rfl rfl rfl
  refine ⟨by simpa using h.1, ?_, ?_, ?_⟩
  · obtain ⟨r, hr, hk, hp⟩ := h.2.1
    refine ⟨r, hr, hk, ?_⟩
    rw [hp]
    norm_num [tileFreshEx]
  · obtain ⟨r, hr, hk, hp⟩ := h.2.2 0 (by decide)
    refine ⟨r, by simpa using hr, hk, ?_⟩
    rw [hp]
    norm_num [tileFreshEx]
  · obtain ⟨r, hr, hk, hp⟩ := h.2.2 1 (by decide)
    refine ⟨r, by simpa using hr, hk, ?_⟩
    rw [hp]
    norm_num [tileFreshEx]

theorem servicePendingIter_empty (calls : List (Bool × Int)) :
    ∀ (tile : VersionedTile) (fresh : Nat),
      tile.requestsInstalled = true → tile.requests = [] →
      (servicePendingIter tile fresh calls).1.requests = [] ∧
        (servicePendingIter tile fresh calls).1.requestsInstalled = true := by
  induction calls with
  | nil =>
    intro tile fresh hA hB
    exact ⟨hB, hA⟩
  | cons c rest ih =>
    intro tile fresh hA hB
    simp only [servicePendingIter]
    rw [servicePending_installed tile c.1 c.2 fresh hA]
    refine ih _ _ hA ?_
    show (serviceLoop c.2 tile.requests).1 = []
    rw [hB]
    rfl

/-- Claim C10: if the first `servicePendingRequests` runs while the terrain's
factory is null, `requestsInstalled` is still set to true and zero requests
are created, so no later servicing cycle — even with a factory present —
ever creates a request for that tile. -/
theorem claim_C10 (tile : VersionedTile) (s : Int) (fresh : Nat) (calls : List (Bool × Int))
    (h1 : tile.requestsInstalled = false) (h2 : tile.requests = []) :
    ((tile.servicePendingRequests false s fresh).1.requestsInstalled = true) ∧
    ((tile.servicePendingRequests false s fresh).1.requests = []) ∧
    ((tile.servicePendingRequests false s fresh).2.1 = []) ∧
    ((servicePendingIter (tile.servicePendingRequests false s fresh).1
        (tile.servicePendingRequests false s fresh).2.2 calls).1.requests = []) := by
  have hfirst : tile.servicePendingRequests false s fresh =
      ({ tile with requestsInstalled := true, requests := [] }, [], fresh) := by
    simp [VersionedTile.servicePendingRequests, serviceLoop, h1, h2]
  refine ⟨?_, ?_, ?_, ?_⟩ <;> rw [hfirst]
  exact (servicePendingIter_empty calls _ fresh rfl rfl).1

theorem claim_C10_witness :
    (({ tileFreshEx with elevationLayer := some 7 } : VersionedTile).servicePendingRequests
        false 0 0).1.requests = [] ∧
      (servicePendingIter (({ tileFreshEx with elevationLayer := some 7 }
            : VersionedTile).servicePendingRequests false 0 0).1
          (({ tileFreshEx with elevationLayer := some 7 }
            : VersionedTile).servicePendingRequests false 0 0).2.2
          [(true, 1), (true, 2)]).1.requests = [] := by
  have h := claim_C10 { tileFreshEx with elevationLayer := some 7 } 0 0
    [(true, 1), (true, 2)] rfl rfl
  exact ⟨h.2.1, h.2.2.2⟩

/-! Helper lemmas about the harvesting loop. -/

theorem harvestLoop_cons_completed (tile : VersionedTile) (fresh : Nat)
    (r : TileLayerRequest) (rest : List TileLayerRequest)
    (h : r.state = TaskState.STATE_COMPLETED) :
    harvestLoop tile fresh (r :: rest) = harvestLoop (harvestCompleted tile r) fresh rest := by
  simp only [harvestLoop, if_pos h]

theorem harvestLoop_cons_canceled (tile : VersionedTile) (fresh : Nat)
    (r : TileLayerRequest) (rest : List TileLayerRequest)
    (h1 : r.state ≠ TaskState.STATE_COMPLETED) (h2 : r.state = TaskState.STATE_CANCELED) :
    harvestLoop tile fresh (r :: rest) =
      ((harvestLoop tile (fresh + 1) rest).1, (harvestLoop tile (fresh + 1) rest).2.1,
        { r with state := TaskState.STATE_IDLE,
                 progress := { id := fresh, canceled := false } } ::
          (harvestLoop tile (fresh + 1) rest).2.2) := by
  simp only [harvestLoop, if_neg h1, if_pos h2]

theorem harvestLoop_cons_other (tile : VersionedTile) (fresh : Nat)
    (r : TileLayerRequest) (rest : List TileLayerRequest)
    (h1 : r.state ≠ TaskState.STATE_COMPLETED) (h2 : r.state ≠ TaskState.STATE_CANCELED) :
    harvestLoop tile fresh (r :: rest) =
      ((harvestLoop tile fresh rest).1, (harvestLoop tile fresh rest).2.1,
        r :: (harvestLoop tile fresh rest).2.2) := by
  simp only [harvestLoop, if_neg h1, if_neg h2]

theorem serviceCompleted_requests (tile : VersionedTile) (fresh : Nat) :
    (tile.serviceCompletedRequests fresh).1.requests =
      (harvestLoop tile fresh tile.requests).2.2 := rfl

theorem harvestLoop_no_completed (rs : List TileLayerRequest) :
    ∀ (tile : VersionedTile) (fresh : Nat),
      ∀ q ∈ (harvestLoop tile fresh rs).2.2, q.state ≠ TaskState.STATE_COMPLETED := by
  induction rs with
  | nil =>
    intro tile fresh q hq
    simp [harvestLoop] at hq
  | cons r rest ih =>
    intro tile fresh q hq
    by_cases h1 : r.state = TaskState.STATE_COMPLETED
    · rw [harvestLoop_cons_completed tile fresh r rest h1] at hq
      exact ih _ _ q hq
    · by_cases h2 : r.state = TaskState.STATE_CANCELED
      · rw [harvestLoop_cons_canceled tile fresh r rest h1 h2] at hq
        rcases List.mem_cons.mp hq with he | ht
        · rw [he]
          intro hc
          exact TaskState.noConfusion hc
        · exact ih _ _ q ht
      · rw [harvestLoop_cons_other tile fresh r rest h1 h2] at hq
        rcases List.mem_cons.mp hq with he | ht
        · rw [he]
          exact h1
        · exact ih _ _ q ht

theorem harvestLoop_canceled_kept (rs : List TileLayerRequest) :
    ∀ (tile : VersionedTile) (fresh : Nat), ∀ r ∈ rs, r.state = TaskState.STATE_CANCELED →
      ∃ n : Nat,
        { r with state := TaskState.STATE_IDLE,
                 progress := { id := n, canceled := false } } ∈
          (harvestLoop tile fresh rs).2.2 := by
  induction rs with
  | nil =>
    intro tile fresh r hr
    cases hr
  | cons r0 rest ih =>
    intro tile fresh r hr hc
    rcases List.mem_cons.mp hr with he | ht
    · subst he
      have h1 : r.state ≠ TaskState.STATE_COMPLETED := by
        rw [hc]
        intro hx
        exact TaskState.noConfusion hx
      rw [harvestLoop_cons_canceled tile fresh r rest h1 hc]
      exact ⟨fresh, List.mem_cons_self _ _⟩
    · by_cases h1 : r0.state = TaskState.STATE_COMPLETED
      · rw [harvestLoop_cons_completed tile fresh r0 rest h1]
        exact ih _ _ r ht hc
      · by_cases h2 : r0.state = TaskState.STATE_CANCELED
        · rw [harvestLoop_cons_canceled tile fresh r0 rest h1 h2]
          obtain ⟨n, hm⟩ := ih tile (fresh + 1) r ht hc
          exact ⟨n, List.mem_cons_of_mem _ hm⟩
        · rw [harvestLoop_cons_other tile fresh r0 rest h1 h2]
          obtain ⟨n, hm⟩ := ih tile fresh r ht hc
          exact ⟨n, List.mem_cons_of_mem _ hm⟩

theorem serviceLoop_submitted_idle (s : Int) (rs : List TileLayerRequest) :
    ∀ q ∈ (serviceLoop s rs).2, q.state = TaskState.STATE_IDLE := by
  intro q hq
  rw [serviceLoop_snd] at hq
  obtain ⟨r, hr, hqe⟩ := List.mem_map.mp hq
  have hst : r.state = TaskState.STATE_IDLE := by
    have hmem := (List.mem_filter.mp hr).2
    simpa using hmem
  rw [← hqe]
  exact hst

/-- Claim C5: at harvest a canceled request is not discarded — it stays in
the collection, reset to idle with a freshly constructed (non-canceled)
progress monitor; only idle requests are ever submitted to the task service
by a servicing pass; and no completed request survives a harvest (so a
request that reached the completed state is never resubmitted). -/
theorem claim_C5 (tile : VersionedTile) (fresh : Nat) :
    (∀ r ∈ tile.requests, r.state = TaskState.STATE_CANCELED →
      ∃ n : Nat,
        { r with state := TaskState.STATE_IDLE,
                 progress := { id := n, canceled := false } } ∈
          (tile.serviceCompletedRequests fresh).1.requests) ∧
    (∀ (t2 : VersionedTile) (fp : Bool) (s2 : Int) (f2 : Nat),
      ∀ q ∈ (t2.servicePendingRequests fp s2 f2).2.1, q.state = TaskState.STATE_IDLE) ∧
    (∀ q ∈ (tile.serviceCompletedRequests fresh).1.requests,
      q.state ≠ TaskState.STATE_COMPLETED) := by
  refine ⟨?_, ?_, ?_⟩
  · intro r hr hc
    rw [serviceCompleted_requests]
    exact harvestLoop_canceled_kept tile.requests tile fresh r hr hc
  · intro t2 fp s2 f2 q hq
    exact serviceLoop_submitted_idle s2 _ q hq
  · intro q hq
    rw [serviceCompleted_requests] at hq
    exact harvestLoop_no_completed tile.requests tile fresh q hq

/-- Concrete canceled request and tile for the C5 witness. -/
def reqCancEx : TileLayerRequest :=
  { kind := LayerKind.color 0, priority := 3, stamp := 0,
    state := TaskState.STATE_CANCELED, result := none,
    progress := { id := 5, canceled := true } }

def tileC5Ex : VersionedTile :=
  { level := 3, useLayerRequests := true, terrainRevision := 0, tileRevision := 0,
    geometryRevision := 0, requestsInstalled := true, requestElevation := true,
    elevationLayer := some 7, colorLayers := [none], dirty := false,
    elevationLayerDirty := false, colorLayersDirty := false, usePerLayerUpdates := false,
    requests := [reqCancEx] }

theorem claim_C5_witness :
    ∃ n : Nat,
      { reqCancEx with state := TaskState.STATE_IDLE,
                       progress := { id := n, canceled := false } } ∈
        (tileC5Ex.serviceCompletedRequests 0).1.requests :=
  (claim_C5 tileC5Ex 0).1 reqCancEx (by simp [tileC5Ex]) rfl

/-- Claim C4: a completed request is removed from the tile's collection at
harvest; a non-null elevation payload is installed as the tile's elevation
layer and a non-null color payload at the request's layer index, setting the
matching per-layer dirty flag in per-layer-update mode and the whole-tile
dirty flag otherwise; a null payload is removed with no layer installed and
no dirty flag set; and in general no completed request survives any
harvest. -/
theorem claim_C4 (tile : VersionedTile) (r : TileLayerRequest) (fresh : Nat)
    (hreq : tile.requests = [r]) (hc : r.state = TaskState.STATE_COMPLETED) :
    ((tile.serviceCompletedRequests fresh).1.requests = []) ∧
    (∀ h : Nat, r.kind = LayerKind.elevation → r.result = some h →
      ((tile.serviceCompletedRequests fresh).1.elevationLayer = some h ∧
        (tile.usePerLayerUpdates = true →
          (tile.serviceCompletedRequests fresh).1.elevationLayerDirty = true ∧
            (tile.serviceCompletedRequests fresh).1.dirty = tile.dirty) ∧
        (tile.usePerLayerUpdates = false →
          (tile.serviceCompletedRequests fresh).1.dirty = true ∧
            (tile.serviceCompletedRequests fresh).1.elevationLayerDirty =
              tile.elevationLayerDirty))) ∧
    (∀ (i : Nat) (h : Nat), r.kind = LayerKind.color i → r.result = some h →
      ((tile.serviceCompletedRequests fresh).1.colorLayers =
          tile.colorLayers.set i (some h) ∧
        (tile.usePerLayerUpdates = true →
          (tile.serviceCompletedRequests fresh).1.colorLayersDirty = true ∧
            (tile.serviceCompletedRequests fresh).1.dirty = tile.dirty) ∧
        (tile.usePerLayerUpdates = false →
          (tile.serviceCompletedRequests fresh).1.dirty = true ∧
            (tile.serviceCompletedRequests fresh).1.colorLayersDirty =
              tile.colorLayersDirty))) ∧
    (r.result = none →
      (tile.serviceCompletedRequests fresh).1 = { tile with requests := [] }) ∧
    (∀ (t2 : VersionedTile) (f2 : Nat),
      ∀ q ∈ (t2.serviceCompletedRequests f2).1.requests,
        q.state ≠ TaskState.STATE_COMPLETED) := by
  have hloop : harvestLoop tile fresh tile.requests = (harvestCompleted tile r, fresh, []) := by
    rw [hreq, harvestLoop_cons_completed tile fresh r [] hc]
    rfl
  have hout : (tile.serviceCompletedRequests fresh).1 =
      { harvestCompleted tile r with requests := [] } := by
    unfold VersionedTile.serviceCompletedRequests
    rw [hloop]
  refine ⟨?_, ?_, ?_, ?_, ?_⟩
  · rw [hout]
  · intro h hk hres
    rw [hout]
    by_cases hm : tile.usePerLayerUpdates
    · simp [harvestCompleted, hk, hres, hm]
    · simp [harvestCompleted, hk, hres, hm]
  · intro i h hk hres
    rw [hout]
    by_cases hm : tile.usePerLayerUpdates
    · simp [harvestCompleted, hk, hres, hm]
    · simp [harvestCompleted, hk, hres, hm]
  · intro hres
    rw [hout]
    rcases hrk : r.kind with _ | i <;> simp [harvestCompleted, hrk, hres]
  · intro t2 f2 q hq
    rw [serviceCompleted_requests] at hq
    exact harvestLoop_no_completed t2.requests t2 f2 q hq

/-- Concrete completed elevation request and tile for the C4 witness. -/
def reqDoneElevEx : TileLayerRequest :=
  { kind := LayerKind.elevation, priority := 3, stamp := 0,
    state := TaskState.STATE_COMPLETED, result := some 9,
    progress := { id := 3, canceled := false } }

def tileC4Ex : VersionedTile :=
  { level := 3, useLayerRequests := true, terrainRevision := 0, tileRevision := 0,
    geometryRevision := 0, requestsInstalled := true, requestElevation := true,
    elevationLayer := some 7, colorLayers := [none], dirty := false,
    elevationLayerDirty := false, colorLayersDirty := false, usePerLayerUpdates := false,
    requests := [reqDoneElevEx] }

theorem claim_C4_witness :
    (tileC4Ex.serviceCompletedRequests 0).1.requests = [] ∧
      (tileC4Ex.serviceCompletedRequests 0).1.elevationLayer = some 9 ∧
      (tileC4Ex.serviceCompletedRequests 0).1.dirty = true := by
  have h := claim_C4 tileC4Ex reqDoneElevEx 0 rfl rfl
  refine ⟨h.1, ?_, ?_⟩
  · exact (h.2.1 9 rfl rfl).1
  · exact ((h.2.1 9 rfl rfl).2.2 rfl).1

/-- Claim C7: an update pass with servicing enabled harvests first (the
traversal's request list is the harvested one); if the harvested tile's
whole-tile dirty flag is set, both per-layer flags are set and no incremental
`updateContent` call is made; otherwise `updateContent` is called exactly
when a per-layer flag is set, with those flags; the geometry revision is
bumped by exactly 1 iff the elevation-dirty flag was set (directly or via the
whole-tile flag), and both per-layer flags end the pass cleared. -/
theorem claim_C7 (tile : VersionedTile) (fresh : Nat) (hu : tile.useLayerRequests = true) :
    ((tile.traverse true fresh).1.requests =
        (tile.serviceCompletedRequests fresh).1.requests) ∧
    ((tile.serviceCompletedRequests fresh).1.dirty = true →
      (traversePre tile fresh).1.elevationLayerDirty = true ∧
        (traversePre tile fresh).1.colorLayersDirty = true ∧
        (tile.traverse true fresh).2.2 = none) ∧
    ((tile.serviceCompletedRequests fresh).1.dirty = false →
      (tile.traverse true fresh).2.2 =
        (if (tile.serviceCompletedRequests fresh).1.elevationLayerDirty ||
            (tile.serviceCompletedRequests fresh).1.colorLayersDirty then
          some ((tile.serviceCompletedRequests fresh).1.elevationLayerDirty,
            (tile.serviceCompletedRequests fresh).1.colorLayersDirty)
        else none)) ∧
    ((tile.traverse true fresh).1.geometryRevision =
      (tile.serviceCompletedRequests fresh).1.geometryRevision +
        (if (tile.serviceCompletedRequests fresh).1.dirty = true ∨
            (tile.serviceCompletedRequests fresh).1.elevationLayerDirty = true then
          1
        else 0)) ∧
    ((tile.traverse true fresh).1.elevationLayerDirty = false) ∧
    ((tile.traverse true fresh).1.colorLayersDirty = false) := by
  have htrav : tile.traverse true fresh =
      (traversePost (traversePre tile fresh).1, (traversePre tile fresh).2.1,
        (traversePre tile fresh).2.2) := by
    unfold VersionedTile.traverse
    rw [hu]
    rfl
  by_cases hd : (tile.serviceCompletedRequests fresh).1.dirty = true
  · have hpre : traversePre tile fresh =
        ({ (tile.serviceCompletedRequests fresh).1 with
            elevationLayerDirty := true, colorLayersDirty := true },
          (tile.serviceCompletedRequests fresh).2, none) := by
      simp only [traversePre]
      rw [if_pos hd]
    refine ⟨?_, fun _ => ⟨?_, ?_, ?_⟩, fun hcon => ?_, ?_, ?_, ?_⟩
    · rw [htrav, hpre]
      rfl
    · rw [hpre]
    · rw [hpre]
    · rw [htrav, hpre]
    · rw [hd] at hcon
      exact Bool.noConfusion hcon
    · rw [htrav, hpre]
      simp [traversePost, hd]
    · rw [htrav, hpre]
      simp [traversePost]
    · rw [htrav, hpre]
      simp [traversePost]
  · have hdf : (tile.serviceCompletedRequests fresh).1.dirty = false :=
      Bool.eq_false_iff.mpr hd
    by_cases hflags : ((tile.serviceCompletedRequests fresh).1.elevationLayerDirty ||
        (tile.serviceCompletedRequests fresh).1.colorLayersDirty) = true
    · have hpre : traversePre tile fresh =
          ((tile.serviceCompletedRequests fresh).1,
            (tile.serviceCompletedRequests fresh).2,
            some ((tile.serviceCompletedRequests fresh).1.elevationLayerDirty,
              (tile.serviceCompletedRequests fresh).1.colorLayersDirty)) := by
        simp only [traversePre]
        rw [if_neg hd, if_pos hflags]
      refine ⟨?_, fun hcon => ?_, fun _ => ?_, ?_, ?_, ?_⟩
      · rw [htrav, hpre]
        rfl
      · rw [hdf] at hcon
        exact Bool.noConfusion hcon
      · rw [htrav, hpre, if_pos hflags]
      · rw [htrav, hpre]
        simp [traversePost, hdf]
      · rw [htrav, hpre]
        simp [traversePost]
      · rw [htrav, hpre]
        simp [traversePost]
    · have hpre : traversePre tile fresh =
          ((tile.serviceCompletedRequests fresh).1,
            (tile.serviceCompletedRequests fresh).2, none) := by
        simp only [traversePre]
        rw [if_neg hd, if_neg hflags]
      have hE : (tile.serviceCompletedRequests fresh).1.elevationLayerDirty = false := by
        rcases Bool.or_eq_false_iff.mp (Bool.eq_false_iff.mpr hflags) with ⟨he, _⟩
        exact he
      refine ⟨?_, fun hcon => ?_, fun _ => ?_, ?_, ?_, ?_⟩
      · rw [htrav, hpre]
        rfl
      · rw [hdf] at hcon
        exact Bool.noConfusion hcon
      · rw [htrav, hpre, if_neg hflags]
      · rw [htrav, hpre]
        simp [traversePost, hdf, hE]
      · rw [htrav, hpre]
        simp [traversePost]
      · rw [htrav, hpre]
        simp [traversePost]

/-- Concrete tile with a set elevation-dirty flag for the C7 witness. -/
def tileC7Ex : VersionedTile :=
  { level := 1, useLayerRequests := true, terrainRevision := 0, tileRevision := 0,
    geometryRevision := 5, requestsInstalled := true, requestElevation := true,
    elevationLayer := some 7, colorLayers := [none], dirty := false,
    elevationLayerDirty := true, colorLayersDirty := false, usePerLayerUpdates := true,
    requests := [] }

theorem claim_C7_witness :
    (tileC7Ex.traverse true 0).1.elevationLayerDirty = false ∧
      (tileC7Ex.traverse true 0).2.2 = some (true, false) ∧
      (tileC7Ex.traverse true 0).1.geometryRevision = 6 := by
  have h := claim_C7 tileC7Ex 0 rfl
  refine ⟨h.2.2.2.2.1, ?_, ?_⟩
  · have hupd := h.2.2.1 rfl
    rw [hupd]
    decide
  · have hgeo := h.2.2.2.1
    rw [hgeo]
    decide

/-- Claim C3: a tile whose stored terrain revision R differs from the
terrain's current revision R + 1 is detected as out of sync by
`isInSyncWithTerrain`, and the (spec-modelled) reconciliation marks it for a
full layer reload: the cached elevation and color layer data are discarded,
the stored revision is resynchronised, and the request collection is
replaced by a full re-fetch — exactly one fresh request per layer the tile
had cached (elevation when present and hinted, one per color slot), never
more than one per layer. -/
theorem claim_C3 (tile : VersionedTile) (terrain : VersionedTerrain) (R stamp : Int)
    (fresh : Nat) (h1 : tile.terrainRevision = R) (h2 : terrain.revision = R + 1) :
    (tile.isInSyncWithTerrain terrain = false) ∧
    ((reconcileWithTerrain tile terrain stamp fresh).1.elevationLayer = none) ∧
    ((reconcileWithTerrain tile terrain stamp fresh).1.colorLayers =
        tile.colorLayers.map (fun _ => none)) ∧
    ((reconcileWithTerrain tile terrain stamp fresh).1.dirty = true) ∧
    ((reconcileWithTerrain tile terrain stamp fresh).1.terrainRevision =
        terrain.revision) ∧
    ((reconcileWithTerrain tile terrain stamp fresh).1.requestsInstalled = true) ∧
    (countKind LayerKind.elevation
        (reconcileWithTerrain tile terrain stamp fresh).1.requests =
      (if tile.elevationLayer.isSome && tile.requestElevation then 1 else 0)) ∧
    (∀ i : Nat,
      countKind (LayerKind.color i)
          (reconcileWithTerrain tile terrain stamp fresh).1.requests =
        (if i < tile.colorLayers.length then 1 else 0)) ∧
    (∀ k : LayerKind,
      countKind k (reconcileWithTerrain tile terrain stamp fresh).1.requests ≤ 1) := by
  have hsync : tile.isInSyncWithTerrain terrain = false := by
    simp only [VersionedTile.isInSyncWithTerrain, h1, h2]
    simp only [decide_eq_false_iff_not]
    omega
  have hrec : reconcileWithTerrain tile terrain stamp fresh =
      ({ tile with
          elevationLayer := none
          colorLayers := tile.colorLayers.map (fun _ => none)
          requests := (installRequests tile stamp fresh).1
          requestsInstalled := true
          dirty := true
          terrainRevision := terrain.revision },
        (installRequests tile stamp fresh).2) := by
    unfold reconcileWithTerrain
    rw [hsync]
    rfl
  refine ⟨hsync, ?_, ?_, ?_, ?_, ?_, ?_, ?_, ?_⟩
  · rw [hrec]
  · rw [hrec]
  · rw [hrec]
  · rw [hrec]
  · rw [hrec]
  · rw [hrec]
    exact countKind_install_elev tile stamp fresh
  · intro i
    rw [hrec]
    exact countKind_install_color tile stamp fresh i
  · intro k
    rw [hrec]
    show countKind k (installRequests tile stamp fresh).1 ≤ 1
    cases k with
    | elevation =>
      rw [countKind_install_elev tile stamp fresh]
      split <;> decide
    | color i =>
      rw [countKind_install_color tile stamp fresh i]
      split <;> decide

/-- Concrete out-of-sync tile/terrain pair for the C3 witness. -/
def tileC3Ex : VersionedTile :=
  { tileFreshEx with terrainRevision := 0 }

def terrainC3Ex : VersionedTerrain :=
  { revision := 1, numTaskServiceThreads := 8, layerFactory := true, taskService := none }

theorem claim_C3_witness :
    tileC3Ex.isInSyncWithTerrain terrainC3Ex = false ∧
      (reconcileWithTerrain tileC3Ex terrainC3Ex 0 0).1.elevationLayer = none ∧
      countKind LayerKind.elevation
          (reconcileWithTerrain tileC3Ex terrainC3Ex 0 0).1.requests = 1 ∧
      countKind (LayerKind.color 0)
          (reconcileWithTerrain tileC3Ex terrainC3Ex 0 0).1.requests = 1 := by
  have h := claim_C3 tileC3Ex terrainC3Ex 0 0 0 rfl rfl
  refine ⟨h.1, h.2.1, ?_, ?_⟩
  · rw [h.2.2.2.2.2.2.1]
    decide
  · rw [h.2.2.2.2.2.2.2.1 0]
    decide
